import Mathlib

/-!
Verification development for the motion-control core of a differential-drive
robot (repository `1011V`, `src/main.cpp`).  The file under `src/` configures
the LemLib chassis (drivetrain geometry, PID gains, odometry sensors) and
implements the driver-control tasks (`drive`, `intake`, `clamp`) and the
`autonomous` routine.  The LemLib library code itself (PID stepping, odometry
integration, drivetrain mixing, motion-command supervision) is not part of the
repository sources, so those operations are modelled from the specification
(spec §4.2–§4.5, §5, §7), while every configured constant is taken verbatim
from `src/main.cpp`.  All quantities are rationals; the embedding is
executable.
-/

namespace RobotCore

/-! ## Configured constants (translated from `src/main.cpp`) -/

/-- Controller settings, translated from the `lemlib::ControllerSettings`
constructor arguments in `src/main.cpp` (same field order as the C++ call). -/
structure ControllerSettings where
  kP : ℚ
  kI : ℚ
  kD : ℚ
  antiWindupRange : ℚ
  smallError : ℚ
  smallErrorTimeout : ℚ
  largeError : ℚ
  largeErrorTimeout : ℚ
  maxSlewRate : ℚ
  deriving Repr, DecidableEq

/-- Lateral (linear) motion controller, `src/main.cpp` lines 33–42. -/
def linearController : ControllerSettings :=
  { kP := 5, kI := 0, kD := 4, antiWindupRange := 3,
    smallError := 1, smallErrorTimeout := 100,
    largeError := 3, largeErrorTimeout := 500, maxSlewRate := 20 }

/-- Angular motion controller, `src/main.cpp` lines 45–54. -/
def angularController : ControllerSettings :=
  { kP := 2, kI := 0, kD := 10, antiWindupRange := 3,
    smallError := 1, smallErrorTimeout := 100,
    largeError := 3, largeErrorTimeout := 500, maxSlewRate := 0 }

/-- Configured maximum drivetrain wheel speed, `src/main.cpp` line 28
(`450, // drivetrain rpm is 450`). -/
def drivetrainRPM : ℚ := 450

/-! ## Drivetrain Actuator (spec §4.4) -/

/-- A left/right wheel velocity command pair (spec §3, `DriveCommand`). -/
structure DriveCommand where
  left : ℚ
  right : ℚ
  deriving Repr, DecidableEq

/-- Modelled from the spec (§4.4, Drivetrain Actuator; the `lemlib::Drivetrain`
implementation is not under `src/`): `left = linearOutput − angularOutput`,
`right = linearOutput + angularOutput`, then both scaled down proportionally
(preserving the ratio) if either exceeds the configured max wheel velocity. -/
def drive (maxV linearOutput angularOutput : ℚ) : DriveCommand :=
  let l := linearOutput - angularOutput
  let r := linearOutput + angularOutput
  let m := max |l| |r|
  if m ≤ maxV then ⟨l, r⟩
  else ⟨l * (maxV / m), r * (maxV / m)⟩

/-- The common scale factor applied by `drive`: `1` when neither wheel
saturates, `maxV / max |l| |r|` otherwise. -/
def driveScale (maxV linearOutput angularOutput : ℚ) : ℚ :=
  let l := linearOutput - angularOutput
  let r := linearOutput + angularOutput
  let m := max |l| |r|
  if m ≤ maxV then 1 else maxV / m

/-! ## PID Controller (spec §4.3) -/

/-- Mutable state of one PID controller instance (spec §3, `PIDState`):
integral accumulator, previous error and output, and the two settling timers
(time spent continuously inside the small and large error bands). -/
structure PIDState where
  integral : ℚ
  prevError : ℚ
  prevOutput : ℚ
  smallTimer : ℚ
  largeTimer : ℚ
  deriving Repr, DecidableEq

/-- The `reset()` operation (spec §4.3): zeroes integral, previous error, previous output,
and both settling timers. -/
def PIDState.reset : PIDState := ⟨0, 0, 0, 0, 0⟩

/-- Modelled from the spec (§4.3, `step(error, dt)`; the `lemlib::PID` /
`lemlib::ExitCondition` implementations are not under `src/`):
  * the integral accumulates `error * dt` but is clamped to zero whenever
    `|error| > antiWindupRange`;
  * output = `kP*error + kI*integral + kD*(error - previousError)/dt`,
    slew-limited to change at most `maxSlewRate` from the previous output
    (`0` disables limiting);
  * each settling timer advances by `dt` while `|error|` is inside its band
    and resets to zero on a single violation.
Returns the new state together with the output. -/
def pidStep (g : ControllerSettings) (s : PIDState) (error dt : ℚ) : PIDState × ℚ :=
  let integral := if g.antiWindupRange < |error| then 0 else s.integral + error * dt
  let raw := g.kP * error + g.kI * integral + g.kD * ((error - s.prevError) / dt)
  let out := if g.maxSlewRate = 0 then raw
    else max (s.prevOutput - g.maxSlewRate) (min raw (s.prevOutput + g.maxSlewRate))
  (⟨integral, error, out,
    if |error| < g.smallError then s.smallTimer + dt else 0,
    if |error| < g.largeError then s.largeTimer + dt else 0⟩, out)

/-- Iterate `pidStep` over a sequence of errors sampled every `dt`. -/
def pidRun (g : ControllerSettings) (s : PIDState) (es : List ℚ) (dt : ℚ) : PIDState :=
  es.foldl (fun st e => (pidStep g st e dt).1) s

/-- The `isSettled()` query (spec §4.3): the controller reports settled once the error
has stayed inside the small band for `smallErrorTimeout`, or inside the large
band for `largeErrorTimeout`. -/
def isSettled (g : ControllerSettings) (s : PIDState) : Bool :=
  decide (g.smallErrorTimeout ≤ s.smallTimer) || decide (g.largeErrorTimeout ≤ s.largeTimer)

/-! ## Odometry Estimator (spec §4.2) -/

/-- A robot pose estimate (spec §3, `Pose`); `theta` is the IMU heading in
degrees. -/
structure Pose where
  x : ℚ
  y : ℚ
  theta : ℚ
  deriving Repr, DecidableEq

/-- One odometry input sample for the configured sensor set (`src/main.cpp`
lines 57–62: one vertical tracking wheel plus the inertial sensor):
`dist` is the cumulative calibrated, offset-corrected travel of the vertical
tracking wheel as produced by the Sensor Adapter (spec §4.1), `heading` the
IMU heading in degrees. -/
structure OdomSample where
  dist : ℚ
  heading : ℚ
  deriving Repr, DecidableEq

/-- Modelled from the spec (§4.2, odometry tick; the `lemlib` odometry task is
not under `src/`): the delta distance since the previous sample is projected
into the global frame along the unit direction of the average of old and new
heading (midpoint/arc approximation), and the pose heading is overwritten with
the new IMU heading.  `dir` maps a heading in degrees to its global unit
direction vector; it is a parameter because exact trigonometry is irrational,
and every theorem below either holds for all `dir` or evaluates `dir` only at
right-angle headings where the direction is exactly rational. -/
def odomStep (dir : ℚ → ℚ × ℚ) (p : Pose) (prev cur : OdomSample) : Pose :=
  let d := cur.dist - prev.dist
  let avg := (prev.heading + cur.heading) / 2
  { x := p.x + d * (dir avg).1, y := p.y + d * (dir avg).2, theta := cur.heading }

/-- Fold `odomStep` over a sample sequence, starting from baseline sample
`prev`. -/
def odomRun (dir : ℚ → ℚ × ℚ) (p : Pose) (prev : OdomSample) : List OdomSample → Pose
  | [] => p
  | s :: rest => odomRun dir (odomStep dir p prev s) s rest

/-- A concrete heading-to-unit-direction table that agrees exactly with
`(cos θ°, sin θ°)` at the four right-angle headings; those are the only
headings at which concrete sequences in this development evaluate it while
moving.  (At right angles the true direction vector is rational, so no
approximation is involved there.) -/
def dirDeg (a : ℚ) : ℚ × ℚ :=
  if a = 0 then (1, 0)
  else if a = 90 then (0, 1)
  else if a = 180 then (-1, 0)
  else if a = 270 then (0, -1)
  else (1, 0)

/-! ## Motion Supervisor (spec §4.5, §7) -/

/-- Terminal test of one motion command, modelled from the spec (§4.5; the
`lemlib::Chassis` motion task is not under `src/`): the command ends at tick
`t` once the controller reports settled or once the elapsed time `t * dt`
reaches `timeoutMs`.  `settled` is an arbitrary Boolean tick sequence, so the
result covers every possible sequence of sensor readings (including a target
that is never reached, where `settled` is constantly `false`). -/
def motionTerminalB (settled : ℕ → Bool) (timeoutMs dt t : ℕ) : Bool :=
  settled t || decide (timeoutMs ≤ t * dt)

/-- Number of control ticks until the motion command reaches a terminal state
(the first tick at which `motionTerminalB` holds); `dt` is the tick period in
milliseconds. -/
def ticksToTerminal (settled : ℕ → Bool) (timeoutMs dt : ℕ) : ℕ :=
  if hdt : 0 < dt then
    Nat.find (⟨timeoutMs, by
      have h := Nat.le_mul_of_pos_right timeoutMs hdt
      simp [motionTerminalB, h]⟩ :
      ∃ t, motionTerminalB settled timeoutMs dt t = true)
  else 0

/-- Terminal outcome of a motion command (spec §7(c)): settling and timeout
are the only terminal conditions; there is no error outcome. -/
inductive MotionResult where
  | settled
  | timedOut
  deriving Repr, DecidableEq

/-- The outcome reported when the command terminates: `settled` if the
controller reported settled at the terminal tick, otherwise a normal
timeout. -/
def motionResult (settled : ℕ → Bool) (timeoutMs dt : ℕ) : MotionResult :=
  if settled (ticksToTerminal settled timeoutMs dt) then .settled else .timedOut

/-- Modelled from the spec (§4.5, §7(d); the `lemlib::Chassis` target-error
computation is not under `src/`): the heading error toward the target point is
defined to be zero when the distance to the target is zero, and otherwise is
the bearing of the displacement minus the current heading.  `bearing` is the
two-argument arctangent in degrees, kept as a parameter because it is
irrational; the guard never evaluates it at `(0, 0)`. -/
def headingErrorTo (bearing : ℚ → ℚ → ℚ) (p : Pose) (tx ty : ℚ) : ℚ :=
  if tx - p.x = 0 ∧ ty - p.y = 0 then 0
  else bearing (tx - p.x) (ty - p.y) - p.theta

/-- Remaining linear distance to the target point; `sqrtQ` stands for the
square root (a parameter, since exact square roots are irrational). -/
def distanceTo (sqrtQ : ℚ → ℚ) (p : Pose) (tx ty : ℚ) : ℚ :=
  sqrtQ ((tx - p.x) ^ 2 + (ty - p.y) ^ 2)

/-- Modelled from the spec (§4.5): one control tick of a `moveToPoint`
command: feed the linear distance error to the linear PID and the heading
error to the angular PID, and combine both outputs through the Drivetrain
Actuator at the configured maximum wheel speed. -/
def supervisorTick (sqrtQ : ℚ → ℚ) (bearing : ℚ → ℚ → ℚ)
    (sLin sAng : PIDState) (p : Pose) (tx ty dt : ℚ) : DriveCommand :=
  drive drivetrainRPM
    (pidStep linearController sLin (distanceTo sqrtQ p tx ty) dt).2
    (pidStep angularController sAng (headingErrorTo bearing p tx ty) dt).2

/-! ## Sequential motion-command schedule (spec §4.5) -/

/-- Modelled from the spec (§4.5: a new motion command blocks the caller until
the previous command reaches its terminal state): under blocking semantics the
`i`-th command of a routine starts exactly when all previous commands have
ended, so its start tick is the sum of the previous commands' durations. -/
def startTime : List ℕ → ℕ → ℕ
  | _, 0 => 0
  | [], _ + 1 => 0
  | d :: rest, i + 1 => d + startTime rest i

/-- Command `i` of the routine (with durations `durs`, in ticks) is active at
tick `t`. -/
def activeAt (durs : List ℕ) (i t : ℕ) : Prop :=
  i < durs.length ∧ startTime durs i ≤ t ∧ t < startTime durs i + durs.getD i 0

/-! ## Driver-control tasks (translated from `src/main.cpp`) -/

/-- Observable actions of the `drive()` task (`src/main.cpp` lines 144–155). -/
inductive DriveEvent where
  | moveVelocityLeft (v : ℤ)
  | moveVelocityRight (v : ℤ)
  | readLeftY
  | readRightX
  | arcadeCall (leftY rightX : ℤ)
  | delayMs (ms : ℕ)
  deriving Repr, DecidableEq

/-- One iteration of the `drive()` loop body (`src/main.cpp` lines 147–154):
read both joystick axes, call `chassis.arcade`, delay 20 ms. -/
def driveLoopIter (leftY rightX : ℤ) : List DriveEvent :=
  [.readLeftY, .readRightX, .arcadeCall leftY rightX, .delayMs 20]

/-- Event trace of `drive()` over its first `n` loop iterations
(`src/main.cpp` lines 144–155): before the loop, both motor groups are
commanded `move_velocity(10)`; then the loop body repeats with the joystick
readings `stick k` of iteration `k`. -/
def driveTrace (stick : ℕ → ℤ × ℤ) (n : ℕ) : List DriveEvent :=
  .moveVelocityLeft 10 :: .moveVelocityRight 10 ::
    (List.range n).flatMap (fun k => driveLoopIter (stick k).1 (stick k).2)

/-- Events of `drive()` that read or depend on operator input. -/
def isInputEvent : DriveEvent → Bool
  | .readLeftY => true
  | .readRightX => true
  | .arcadeCall _ _ => true
  | _ => false

/-- Value commanded to the intake motor each iteration (`src/main.cpp`
lines 161–170): `100` while R1 is held (checked first, so R1 wins when both
are held), else `-100` while R2 is held, else `0`. -/
def intakeOutput (r1 r2 : Bool) : ℤ :=
  if r1 then 100 else if r2 then -100 else 0

/-- Observable actions of the `intake()` task (`src/main.cpp` lines 158–173). -/
inductive IntakeEvent where
  | moveMotor (v : ℤ)
  | delayMs (ms : ℕ)
  deriving Repr, DecidableEq

/-- One iteration of the `intake()` loop body: exactly one `motor.move` call,
then a 20 ms delay. -/
def intakeIter (r1 r2 : Bool) : List IntakeEvent :=
  [.moveMotor (intakeOutput r1 r2), .delayMs 20]

/-- Recognizer for motor-command events of the intake task. -/
def isMoveMotor : IntakeEvent → Bool
  | .moveMotor _ => true
  | _ => false

/-- Edge detection of `controller.get_digital_new_press` (spec §6: discrete
button edge-detection, new-press vs. held), over the button level `btn k`
sampled at iteration `k`: true exactly when the button is down now and was up
at the previous check. -/
def newPressAt (btn : ℕ → Bool) : ℕ → Bool
  | 0 => btn 0
  | k + 1 => btn (k + 1) && !btn k

/-- The `isClamped` flag at the start of iteration `k` of the `clamp()` loop
(`src/main.cpp` lines 176–187): initialized `false` before the loop, toggled
during iteration `k` exactly when L1 registers a new press. -/
def clampFlagBefore (btn : ℕ → Bool) : ℕ → Bool
  | 0 => false
  | k + 1 => if newPressAt btn k then !(clampFlagBefore btn k) else clampFlagBefore btn k

/-- Piston value written during iteration `k` (`src/main.cpp` lines 182–183):
`set_value(false)` when `isClamped` holds after the toggle, else
`set_value(true)`. -/
def pistonAt (btn : ℕ → Bool) (k : ℕ) : Bool :=
  !(clampFlagBefore btn (k + 1))

/-- Observable actions of the `clamp()` task. -/
inductive ClampEvent where
  | setPiston (v : Bool)
  | delayMs (ms : ℕ)
  deriving Repr, DecidableEq

/-- One iteration of the `clamp()` loop body (`src/main.cpp` lines 180–184):
a single piston write and nothing else — in particular no delay, because the
`pros::delay(20)` at line 185 sits after the `while` loop and is never
reached. -/
def clampIterEvents (btn : ℕ → Bool) (k : ℕ) : List ClampEvent :=
  [.setPiston (pistonAt btn k)]

/-- Event trace of `clamp()` over its first `n` loop iterations: the
`piston.set_value(true)` before the loop (line 178), then the loop body
repeats. -/
def clampTrace (btn : ℕ → Bool) (n : ℕ) : List ClampEvent :=
  .setPiston true :: (List.range n).flatMap (fun k => clampIterEvents btn k)

/-- Recognizer for delay events of the clamp task. -/
def isDelayEvent : ClampEvent → Bool
  | .delayMs _ => true
  | _ => false

/-! ## Drivetrain Actuator lemmas -/

lemma drive_eq_scale (maxV lin ang : ℚ) :
    drive maxV lin ang =
      ⟨(lin - ang) * driveScale maxV lin ang, (lin + ang) * driveScale maxV lin ang⟩ := by
  unfold drive driveScale
  by_cases h : max |lin - ang| |lin + ang| ≤ maxV <;> simp [h]

lemma driveScale_pos (maxV lin ang : ℚ) (hmax : 0 < maxV) :
    0 < driveScale maxV lin ang := by
  unfold driveScale
  by_cases h : max |lin - ang| |lin + ang| ≤ maxV
  · simp [h]
  · simp only [h, if_false]
    push_neg at h
    exact div_pos hmax (lt_trans hmax h)

lemma driveScale_le_one (maxV lin ang : ℚ) (hmax : 0 < maxV) :
    driveScale maxV lin ang ≤ 1 := by
  unfold driveScale
  by_cases h : max |lin - ang| |lin + ang| ≤ maxV
  · simp [h]
  · simp only [h, if_false]
    push_neg at h
    exact le_of_lt ((div_lt_one (lt_trans hmax h)).mpr h)

lemma drive_left_le (maxV lin ang : ℚ) (hmax : 0 < maxV) :
    |(drive maxV lin ang).left| ≤ maxV := by
  unfold drive
  by_cases h : max |lin - ang| |lin + ang| ≤ maxV
  · simpa [h] using le_trans (le_max_left |lin - ang| |lin + ang|) h
  · simp only [h, if_false]
    push_neg at h
    have hm : (0:ℚ) < max |lin - ang| |lin + ang| := lt_trans hmax h
    have hl : |lin - ang| ≤ max |lin - ang| |lin + ang| := le_max_left _ _
    have hpos : 0 ≤ maxV / max |lin - ang| |lin + ang| := le_of_lt (div_pos hmax hm)
    calc |(lin - ang) * (maxV / max |lin - ang| |lin + ang|)|
        = |lin - ang| * (maxV / max |lin - ang| |lin + ang|) := by
          rw [abs_mul, abs_of_nonneg hpos]
      _ ≤ max |lin - ang| |lin + ang| * (maxV / max |lin - ang| |lin + ang|) :=
          mul_le_mul_of_nonneg_right hl hpos
      _ = maxV := by field_simp

lemma drive_right_le (maxV lin ang : ℚ) (hmax : 0 < maxV) :
    |(drive maxV lin ang).right| ≤ maxV := by
  unfold drive
  by_cases h : max |lin - ang| |lin + ang| ≤ maxV
  · simpa [h] using le_trans (le_max_right |lin - ang| |lin + ang|) h
  · simp only [h, if_false]
    push_neg at h
    have hm : (0:ℚ) < max |lin - ang| |lin + ang| := lt_trans hmax h
    have hr : |lin + ang| ≤ max |lin - ang| |lin + ang| := le_max_right _ _
    have hpos : 0 ≤ maxV / max |lin - ang| |lin + ang| := le_of_lt (div_pos hmax hm)
    calc |(lin + ang) * (maxV / max |lin - ang| |lin + ang|)|
        = |lin + ang| * (maxV / max |lin - ang| |lin + ang|) := by
          rw [abs_mul, abs_of_nonneg hpos]
      _ ≤ max |lin - ang| |lin + ang| * (maxV / max |lin - ang| |lin + ang|) :=
          mul_le_mul_of_nonneg_right hr hpos
      _ = maxV := by field_simp

/-- C1: `drive` mixes `left = linearOutput − angularOutput` and
`right = linearOutput + angularOutput` (returned unscaled whenever neither
wheel exceeds the maximum); in every case the command equals the ideal pair
multiplied by one common positive factor `≤ 1` (so the left:right ratio is
preserved, never clamped independently), neither wheel's magnitude exceeds the
maximum, and the configured maximum for this drivetrain is 450 RPM. -/
theorem drive_mixes_and_scales_proportionally (maxV lin ang : ℚ) (hmax : 0 < maxV) :
    (max |lin - ang| |lin + ang| ≤ maxV → drive maxV lin ang = ⟨lin - ang, lin + ang⟩) ∧
    (∃ k : ℚ, 0 < k ∧ k ≤ 1 ∧
      drive maxV lin ang = ⟨(lin - ang) * k, (lin + ang) * k⟩) ∧
    |(drive maxV lin ang).left| ≤ maxV ∧
    |(drive maxV lin ang).right| ≤ maxV ∧
    drivetrainRPM = 450 := by
  refine ⟨fun h => ?_, ⟨driveScale maxV lin ang, driveScale_pos maxV lin ang hmax,
    driveScale_le_one maxV lin ang hmax, drive_eq_scale maxV lin ang⟩,
    drive_left_le maxV lin ang hmax, drive_right_le maxV lin ang hmax, rfl⟩
  unfold drive
  simp [h]

/-- Witness for C1 at the spec's example `linear = 100`, `angular = 50`,
`max = 120`: the ideal pair `(50, 150)` saturates and both wheels are scaled
by the common factor `120/150 = 4/5`, giving `(40, 120)`. -/
theorem drive_mixes_and_scales_proportionally_witness :
    drive 120 100 50 = ⟨40, 120⟩ ∧ |(drive 120 100 50).left| ≤ 120 ∧
      |(drive 120 100 50).right| ≤ 120 :=
  ⟨by norm_num [drive],
    (drive_mixes_and_scales_proportionally 120 100 50 (by norm_num)).2.2.1,
    (drive_mixes_and_scales_proportionally 120 100 50 (by norm_num)).2.2.2.1⟩

/-! ## PID Controller lemmas -/

lemma pidStep_integral_of_big (g : ControllerSettings) (s : PIDState) (e dt : ℚ)
    (h : g.antiWindupRange < |e|) : (pidStep g s e dt).1.integral = 0 := by
  simp [pidStep, h]

lemma pidRun_cons (g : ControllerSettings) (s : PIDState) (e : ℚ) (es : List ℚ) (dt : ℚ) :
    pidRun g s (e :: es) dt = pidRun g (pidStep g s e dt).1 es dt := rfl

lemma pidRun_integral_zero (g : ControllerSettings) (dt : ℚ) :
    ∀ (es : List ℚ) (s : PIDState), es ≠ [] →
      (∀ e ∈ es, g.antiWindupRange < |e|) → (pidRun g s es dt).integral = 0 := by
  intro es
  induction es with
  | nil => intro s h _; exact absurd rfl h
  | cons e rest ih =>
    intro s _ h
    cases rest with
    | nil =>
      have he : g.antiWindupRange < |e| := h e (List.mem_singleton_self e)
      simpa [pidRun] using pidStep_integral_of_big g s e dt he
    | cons e2 rest2 =>
      rw [pidRun_cons]
      exact ih _ (List.cons_ne_nil e2 rest2)
        (fun x hx => h x (List.mem_cons_of_mem e hx))

/-- C2: both configured controllers use `antiWindupRange = 3`, and after any
nonempty run of consecutive ticks whose error magnitude exceeds the
controller's `antiWindupRange`, the integral state is clamped to zero — so it
equals `0` at the next tick, whatever state the controller started in. -/
theorem pid_anti_windup_clamps_integral (g : ControllerSettings) (s : PIDState)
    (es : List ℚ) (dt : ℚ) (hne : es ≠ [])
    (h : ∀ e ∈ es, g.antiWindupRange < |e|) :
    (pidRun g s es dt).integral = 0 ∧
      linearController.antiWindupRange = 3 ∧
      angularController.antiWindupRange = 3 :=
  ⟨pidRun_integral_zero g dt es s hne h, rfl, rfl⟩

/-- Witness for C2: two far-phase ticks (errors `5` and `-7`, both of
magnitude above `3`) on the configured linear controller leave the integral
at zero, even starting from a state with nonzero accumulated integral. -/
theorem pid_anti_windup_clamps_integral_witness :
    (pidRun linearController ⟨2, 0, 0, 0, 0⟩ [5, -7] 10).integral = 0 :=
  (pid_anti_windup_clamps_integral linearController ⟨2, 0, 0, 0, 0⟩ [5, -7] 10
    (by simp) (by intro e he; fin_cases he <;> norm_num [linearController])).1

lemma pidRun_smallTimer_add (g : ControllerSettings) (dt : ℚ) :
    ∀ (es : List ℚ) (s : PIDState), (∀ e ∈ es, |e| < g.smallError) →
      (pidRun g s es dt).smallTimer = s.smallTimer + es.length * dt := by
  intro es
  induction es with
  | nil => intro s _; simp [pidRun]
  | cons e rest ih =>
    intro s h
    have he : |e| < g.smallError := h e (List.mem_cons_self e rest)
    rw [pidRun_cons, ih _ (fun x hx => h x (List.mem_cons_of_mem e hx))]
    have hstep : (pidStep g s e dt).1.smallTimer = s.smallTimer + dt := by
      simp [pidStep, he]
    rw [hstep, List.length_cons]
    push_cast
    ring

lemma pidRun_largeTimer_add (g : ControllerSettings) (dt : ℚ) :
    ∀ (es : List ℚ) (s : PIDState), (∀ e ∈ es, |e| < g.largeError) →
      (pidRun g s es dt).largeTimer = s.largeTimer + es.length * dt := by
  intro es
  induction es with
  | nil => intro s _; simp [pidRun]
  | cons e rest ih =>
    intro s h
    have he : |e| < g.largeError := h e (List.mem_cons_self e rest)
    rw [pidRun_cons, ih _ (fun x hx => h x (List.mem_cons_of_mem e hx))]
    have hstep : (pidStep g s e dt).1.largeTimer = s.largeTimer + dt := by
      simp [pidStep, he]
    rw [hstep, List.length_cons]
    push_cast
    ring

lemma pidRun_smallTimer_zero (g : ControllerSettings) (dt : ℚ) :
    ∀ (es : List ℚ) (s : PIDState), (∀ e ∈ es, g.smallError ≤ |e|) →
      s.smallTimer = 0 → (pidRun g s es dt).smallTimer = 0 := by
  intro es
  induction es with
  | nil => intro s _ h0; simpa [pidRun] using h0
  | cons e rest ih =>
    intro s h h0
    have he : ¬ |e| < g.smallError := not_lt.mpr (h e (List.mem_cons_self e rest))
    rw [pidRun_cons]
    exact ih _ (fun x hx => h x (List.mem_cons_of_mem e hx)) (by simp [pidStep, he])

lemma isSettled_iff (g : ControllerSettings) (s : PIDState) :
    isSettled g s = true ↔
      (g.smallErrorTimeout ≤ s.smallTimer ∨ g.largeErrorTimeout ≤ s.largeTimer) := by
  simp [isSettled]

/-- C3: starting from a freshly reset linear controller (configured
`smallError = 1`, `smallErrorTimeout = 100` ms, `largeError = 3`,
`largeErrorTimeout = 500` ms): after a run of ticks whose error magnitude
stays below `smallError`, `isSettled()` holds exactly when the accumulated
time reaches `smallErrorTimeout` — so it becomes true at the tick where the
elapsed time first reaches 100 ms and not one tick earlier; a run whose error
stays below `largeError` (but outside the small band) settles exactly when the
accumulated time reaches `largeErrorTimeout`; and a single tick with error
outside a band resets that band's settle timer to zero. -/
theorem pid_settles_exactly_at_timeout (es bs : List ℚ) (dt : ℚ)
    (hsmall : ∀ e ∈ es, |e| < linearController.smallError)
    (hmid : ∀ e ∈ bs, linearController.smallError ≤ |e| ∧ |e| < linearController.largeError) :
    (isSettled linearController (pidRun linearController PIDState.reset es dt) = true ↔
      linearController.smallErrorTimeout ≤ (es.length : ℚ) * dt) ∧
    (isSettled linearController (pidRun linearController PIDState.reset bs dt) = true ↔
      linearController.largeErrorTimeout ≤ (bs.length : ℚ) * dt) ∧
    (∀ (s : PIDState) (e : ℚ), linearController.smallError ≤ |e| →
      (pidStep linearController s e dt).1.smallTimer = 0) ∧
    (∀ (s : PIDState) (e : ℚ), linearController.largeError ≤ |e| →
      (pidStep linearController s e dt).1.largeTimer = 0) := by
  have hlarge : ∀ e ∈ es, |e| < linearController.largeError := fun e he =>
    lt_of_lt_of_le (hsmall e he) (by norm_num [linearController])
  have hS := pidRun_smallTimer_add linearController dt es PIDState.reset hsmall
  have hLes := pidRun_largeTimer_add linearController dt es PIDState.reset hlarge
  have hSbs := pidRun_smallTimer_zero linearController dt bs PIDState.reset
    (fun e he => (hmid e he).1) rfl
  have hLbs := pidRun_largeTimer_add linearController dt bs PIDState.reset
    (fun e he => (hmid e he).2)
  simp only [show PIDState.reset.smallTimer = 0 from rfl,
    show PIDState.reset.largeTimer = 0 from rfl, zero_add] at hS hLes hLbs
  refine ⟨?_, ?_, ?_, ?_⟩
  · rw [isSettled_iff, hS, hLes]
    simp only [linearController]
    constructor
    · rintro (h | h)
      · exact h
      · linarith
    · exact Or.inl
  · rw [isSettled_iff, hSbs, hLbs]
    simp only [linearController]
    constructor
    · rintro (h | h)
      · linarith
      · exact h
    · exact Or.inr
  · intro s e h
    simp [pidStep, not_lt.mpr h]
  · intro s e h
    have hs : ¬ |e| < linearController.largeError := not_lt.mpr h
    have hs2 : ¬ |e| < linearController.smallError := by
      rw [not_lt] at hs ⊢
      exact le_trans (by norm_num [linearController]) hs
    simp [pidStep, hs, hs2]

/-- Witness for C3: ten in-band ticks of 10 ms each (error `0 < smallError`)
make the freshly reset linear controller settled at exactly 100 ms. -/
theorem pid_settles_exactly_at_timeout_witness :
    isSettled linearController
      (pidRun linearController PIDState.reset (List.replicate 10 0) 10) = true :=
  (pid_settles_exactly_at_timeout (List.replicate 10 0) [] 10
    (by intro e he; rw [List.eq_of_mem_replicate he]; norm_num [linearController])
    (by intro e he; simp at he)).1.mpr
    (by norm_num [linearController])

/-! ## Motion Supervisor lemmas -/

lemma ticksToTerminal_spec (settled : ℕ → Bool) (timeoutMs dt : ℕ) (hdt : 0 < dt) :
    motionTerminalB settled timeoutMs dt (ticksToTerminal settled timeoutMs dt) = true := by
  unfold ticksToTerminal
  rw [dif_pos hdt]
  exact Nat.find_spec (p := fun t => motionTerminalB settled timeoutMs dt t = true) _

lemma ticksToTerminal_min (settled : ℕ → Bool) (timeoutMs dt : ℕ) (hdt : 0 < dt)
    (m : ℕ) (hm : motionTerminalB settled timeoutMs dt m = true) :
    ticksToTerminal settled timeoutMs dt ≤ m := by
  unfold ticksToTerminal
  rw [dif_pos hdt]
  exact Nat.find_min' (p := fun t => motionTerminalB settled timeoutMs dt t = true) _ hm

/-- C4: for every possible settled-signal sequence (hence every possible
sequence of sensor readings, including a target that is never reached) and
every positive tick period `dt`, the motion command reaches a terminal state:
the terminal tick satisfies the terminal condition, its elapsed time is at
most `timeoutMs` plus one tick, and the surfaced outcome is always one of the
two normal terminal results (`settled` or `timedOut`) — there is no error
outcome. -/
theorem moveToPoint_terminates_within_timeout (settled : ℕ → Bool) (timeoutMs dt : ℕ)
    (hdt : 0 < dt) :
    motionTerminalB settled timeoutMs dt (ticksToTerminal settled timeoutMs dt) = true ∧
    ticksToTerminal settled timeoutMs dt * dt ≤ timeoutMs + dt ∧
    (motionResult settled timeoutMs dt = MotionResult.settled ∨
      motionResult settled timeoutMs dt = MotionResult.timedOut) := by
  have hmem : motionTerminalB settled timeoutMs dt (timeoutMs / dt + 1) = true := by
    simp only [motionTerminalB, Bool.or_eq_true, decide_eq_true_eq]
    right
    calc timeoutMs = dt * (timeoutMs / dt) + timeoutMs % dt := (Nat.div_add_mod _ _).symm
      _ ≤ dt * (timeoutMs / dt) + dt := Nat.add_le_add_left (le_of_lt (Nat.mod_lt _ hdt)) _
      _ = (timeoutMs / dt + 1) * dt := by ring
  refine ⟨ticksToTerminal_spec settled timeoutMs dt hdt, ?_, ?_⟩
  · have hfind := ticksToTerminal_min settled timeoutMs dt hdt _ hmem
    calc ticksToTerminal settled timeoutMs dt * dt
        ≤ (timeoutMs / dt + 1) * dt := Nat.mul_le_mul_right dt hfind
      _ = timeoutMs / dt * dt + dt := by ring
      _ ≤ timeoutMs + dt := Nat.add_le_add_right (Nat.div_mul_le_self _ _) dt
  · unfold motionResult
    split
    · exact Or.inl rfl
    · exact Or.inr rfl

/-- Witness for C4: with an unreachable target (`settled` constantly false),
the 1000 ms timeout of the `autonomous()` calls and a 10 ms tick, the command
still terminates, within 1010 ms of elapsed time. -/
theorem moveToPoint_terminates_within_timeout_witness :
    ticksToTerminal (fun _ => false) 1000 10 * 10 ≤ 1000 + 10 ∧
      (motionResult (fun _ => false) 1000 10 = MotionResult.settled ∨
        motionResult (fun _ => false) 1000 10 = MotionResult.timedOut) :=
  ⟨(moveToPoint_terminates_within_timeout (fun _ => false) 1000 10 (by decide)).2.1,
    (moveToPoint_terminates_within_timeout (fun _ => false) 1000 10 (by decide)).2.2⟩

/-- C5: when the target point coincides with the current pose (distance zero,
as when `moveToPoint(11, 25, 1000)` follows `turnToPoint(11, 25, 1000)` in
`autonomous()`), the computed heading error is defined to be zero — the
bearing function is never consulted, so no division by zero can occur — and
the control tick still produces a valid `DriveCommand` whose wheel magnitudes
are within the configured 450 RPM maximum, for every square-root and bearing
function and every controller state. -/
theorem zero_distance_target_is_safe (sqrtQ : ℚ → ℚ) (bearing : ℚ → ℚ → ℚ)
    (sLin sAng : PIDState) (p : Pose) (dt : ℚ) :
    headingErrorTo bearing p p.x p.y = 0 ∧
    |(supervisorTick sqrtQ bearing sLin sAng p p.x p.y dt).left| ≤ drivetrainRPM ∧
    |(supervisorTick sqrtQ bearing sLin sAng p p.x p.y dt).right| ≤ drivetrainRPM := by
  have hrpm : (0:ℚ) < drivetrainRPM := by norm_num [drivetrainRPM]
  exact ⟨by simp [headingErrorTo],
    drive_left_le drivetrainRPM _ _ hrpm,
    drive_right_le drivetrainRPM _ _ hrpm⟩

/-! ## Odometry Estimator lemmas -/

/-- Counterexample to C6 as stated: a four-tick sample sequence whose sensor
readings have zero net displacement (the cumulative wheel distance returns to
the baseline value `0`) and zero net heading change (the heading returns to
`0`), yet the estimated pose moves from the origin to `(2, 0)`: roll the wheel
forward one inch at heading `0°`, turn in place to `180°`, roll the wheel back
one inch (which at heading `180°` projects to another inch of forward global
motion), and turn back to `0°`.  Odometry integration is path-dependent, so
net-zero sensor readings do not imply a pose round trip.  Only the exact
rational directions at `0°` and `180°` are exercised while the wheel moves. -/
theorem odom_zero_net_motion_counterexample :
    (([⟨1, 0⟩, ⟨1, 180⟩, ⟨0, 180⟩, ⟨0, 0⟩] : List OdomSample).getLast? = some ⟨0, 0⟩) ∧
    odomRun dirDeg ⟨0, 0, 0⟩ ⟨0, 0⟩ [⟨1, 0⟩, ⟨1, 180⟩, ⟨0, 180⟩, ⟨0, 0⟩] ≠ ⟨0, 0, 0⟩ := by
  constructor
  · rfl
  · norm_num [odomRun, odomStep, dirDeg, Pose.mk.injEq]

/-- C6 (amended): under genuinely motionless sensor readings — every tick
repeats the baseline sample, so each tick has zero displacement and zero
heading change — the odometry pose after any number of ticks equals the pose
before, for every direction function, provided the stored pose heading agrees
with the baseline sample's heading. -/
theorem odom_round_trip_under_no_motion (dir : ℚ → ℚ × ℚ) (p : Pose) (s : OdomSample)
    (n : ℕ) (hθ : p.theta = s.heading) :
    odomRun dir p s (List.replicate n s) = p := by
  induction n generalizing p with
  | zero => simp [odomRun]
  | succ n ih =>
    have hstep : odomStep dir p s s = p := by
      obtain ⟨px, py, pθ⟩ := p
      have hθ2 : pθ = s.heading := hθ
      simp [odomStep, Pose.mk.injEq, hθ2]
    rw [List.replicate_succ]
    show odomRun dir (odomStep dir p s s) s (List.replicate n s) = p
    rw [hstep]
    exact ih p hθ

/-- Witness for the amended C6: five motionless ticks at wheel reading `7`,
heading `90°`, leave the pose `(3, 4, 90°)` unchanged. -/
theorem odom_round_trip_under_no_motion_witness :
    odomRun dirDeg ⟨3, 4, 90⟩ ⟨7, 90⟩ (List.replicate 5 ⟨7, 90⟩) = ⟨3, 4, 90⟩ :=
  odom_round_trip_under_no_motion dirDeg ⟨3, 4, 90⟩ ⟨7, 90⟩ 5 rfl

/-! ## Sequential schedule lemmas -/

lemma startTime_add_le : ∀ (durs : List ℕ) (i j : ℕ), i < j →
    startTime durs i + durs.getD i 0 ≤ startTime durs j := by
  intro durs
  induction durs with
  | nil =>
    intro i j _
    cases i <;> cases j <;> simp [startTime]
  | cons d rest ih =>
    intro i j hij
    cases i with
    | zero =>
      obtain ⟨j2, rfl⟩ : ∃ j2, j = j2 + 1 := ⟨j - 1, by omega⟩
      simp only [startTime, List.getD_cons_zero, zero_add]
      exact Nat.le_add_right d (startTime rest j2)
    | succ i2 =>
      obtain ⟨j2, rfl⟩ : ∃ j2, j = j2 + 1 := ⟨j - 1, by omega⟩
      simp only [startTime, List.getD_cons_succ]
      have h2 := ih i2 j2 (by omega)
      omega

/-- C7: under the blocking semantics of motion commands (each command of a
routine starts exactly when the previous one has reached its terminal state,
so command `i` occupies the tick interval from `startTime durs i` of length
`durs i`), no two distinct motion commands are ever active at the same tick —
back-to-back commands such as those in `autonomous()` execute strictly
sequentially and never drive toward two targets at once. -/
theorem motion_commands_never_overlap (durs : List ℕ) (i j t : ℕ) (hij : i ≠ j) :
    ¬(activeAt durs i t ∧ activeAt durs j t) := by
  rintro ⟨⟨hi, hsi, hei⟩, hj, hsj, hej⟩
  rcases Nat.lt_or_ge i j with h | h
  · have h2 := startTime_add_le durs i j h
    omega
  · have hji : j < i := by omega
    have h2 := startTime_add_le durs j i hji
    omega

/-- Witness for C7: with two commands of 3 and 4 ticks, tick 2 cannot belong
to both commands. -/
theorem motion_commands_never_overlap_witness :
    ¬(activeAt [3, 4] 0 2 ∧ activeAt [3, 4] 1 2) :=
  motion_commands_never_overlap [3, 4] 0 1 2 (by decide)

/-! ## Driver-control task theorems -/

/-- C8: for every joystick-input history and any number of loop iterations,
the trace of `drive()` begins with exactly the two constant velocity-10 motor
commands, and neither of those first two events reads or depends on operator
input — the drivetrain is commanded the fixed velocity 10 before the first
joystick read and first `arcade()` call of the first iteration. -/
theorem drive_commands_fixed_velocity_before_input (stick : ℕ → ℤ × ℤ) (n : ℕ) :
    (driveTrace stick n).take 2 =
      [DriveEvent.moveVelocityLeft 10, DriveEvent.moveVelocityRight 10] ∧
    ((driveTrace stick n).take 2).all (fun e => !(isInputEvent e)) = true := by
  constructor <;> rfl

/-- C9: each intake-loop iteration commands the motor exactly one value:
`100` whenever R1 is held (R1 wins when both are held), else `-100` when R2
is held, else `0`; one iteration contains exactly one motor command followed
by the 20 ms delay, so releasing both buttons stops the intake within one
tick. -/
theorem intake_commands_exactly_one_of_three (r1 r2 : Bool) :
    intakeOutput true r2 = 100 ∧
    intakeOutput false true = -100 ∧
    intakeOutput false false = 0 ∧
    (intakeOutput r1 r2 = 100 ∨ intakeOutput r1 r2 = -100 ∨ intakeOutput r1 r2 = 0) ∧
    (intakeIter r1 r2).countP isMoveMotor = 1 ∧
    intakeIter false false = [IntakeEvent.moveMotor 0, IntakeEvent.delayMs 20] := by
  cases r1 <;> cases r2 <;> decide

/-- C10: in the `clamp()` loop, the piston output written at iteration `k` is
the negation of the `isClamped` flag (`set_value(false)` exactly when the flag
is true); the flag starts `false`; holding L1 across consecutive iterations
(no new press edge) never flips the flag; and the trace of the loop contains
no delay event, because the 20 ms delay sits after the `while` loop and is
never reached. -/
theorem clamp_piston_is_negation_of_flag (btn : ℕ → Bool) (k n : ℕ) :
    (pistonAt btn k = false ↔ clampFlagBefore btn (k + 1) = true) ∧
    clampFlagBefore btn 0 = false ∧
    (btn k = true → btn (k + 1) = true →
      clampFlagBefore btn (k + 2) = clampFlagBefore btn (k + 1)) ∧
    (clampTrace btn n).all (fun e => !(isDelayEvent e)) = true := by
  refine ⟨?_, rfl, ?_, ?_⟩
  · cases h : clampFlagBefore btn (k + 1) <;> simp [pistonAt, h]
  · intro h1 h2
    have hnp : newPressAt btn (k + 1) = false := by simp [newPressAt, h1, h2]
    show (if newPressAt btn (k + 1) then !(clampFlagBefore btn (k + 1))
      else clampFlagBefore btn (k + 1)) = clampFlagBefore btn (k + 1)
    rw [hnp]
    rfl
  · rw [List.all_eq_true]
    intro e he
    rcases List.mem_cons.mp he with h | h
    · subst h; rfl
    · rcases List.mem_flatMap.mp h with ⟨k2, _, hmem⟩
      rcases List.mem_singleton.mp hmem with rfl
      rfl

/-- Witness for C10: holding L1 forever, the flag does not flip between
iterations 1 and 2 (only the initial press edge toggled it). -/
theorem clamp_piston_is_negation_of_flag_witness :
    clampFlagBefore (fun _ => true) 2 = clampFlagBefore (fun _ => true) 1 :=
  (clamp_piston_is_negation_of_flag (fun _ => true) 0 1).2.2.1 rfl rfl

end RobotCore
